import Mathlib

/-!
Verification of the redumper CD dump/refine engine core against its
natural-language specification.  The definitions below are a shallow
embedding of the C++ sources (`src/redumper.cc`, `src/scrambler.cc`,
`src/systems/psx.cc`): byte buffers become `List Nat` (each element a
byte value), machine integers become `Nat`/`Int` with explicit wrapping
where overflow matters, and file-backed streams become explicit lists or
functions.
-/

namespace Redumper

/-! ## Sector layout constants (common.hh) -/

/-- Size of the raw data portion of a CD sector in bytes (`CD_DATA_SIZE`). -/
def CD_DATA_SIZE : Nat := 2352

/-- The 12-byte data sector sync pattern `00 FF×10 00` (`CD_DATA_SYNC`). -/
def CD_DATA_SYNC : List Nat := [0x00, 0xFF, 0xFF, 0xFF, 0xFF, 0xFF, 0xFF, 0xFF, 0xFF, 0xFF, 0xFF, 0x00]

/-- Modelled from the spec: `MSF_LBA_SHIFT` from the missing `common.hh`;
the spec states that MSF 00:00:00 maps to LBA −150. -/
def MSF_LBA_SHIFT : Int := -150

/-- Modelled from the spec: BCD decoding of one byte, used by
`BCDMSF_to_LBA` from the missing `common.hh` ("msf BCD" in the spec's data
model). -/
def bcd_decode (v : Nat) : Nat := (v / 16) * 10 + v % 16

/-- Modelled from the spec: `MSF_to_LBA` from the missing `common.hh`:
minute/second/frame to logical block address, MSF 00:00:00 maps to −150. -/
def MSF_to_LBA (m s f : Nat) : Int := ((m * 60 + s) * 75 + f : Nat) + MSF_LBA_SHIFT

/-- Modelled from the spec: `BCDMSF_to_LBA` from the missing `common.hh`:
decode the three BCD-encoded MSF header bytes and convert to an LBA. -/
def BCDMSF_to_LBA (m s f : Nat) : Int := MSF_to_LBA (bcd_decode m) (bcd_decode s) (bcd_decode f)

/-- Modelled from the spec: `is_zeroed` from the missing `common.hh`,
true when every byte of the buffer is zero (used by `Scrambler::Descramble`). -/
def is_zeroed (l : List Nat) : Bool := l.all (fun b => b == 0)

/-! ## Scrambler (src/scrambler.cc)

`Scrambler::GenerateTable` builds a 2352-byte table from the ECMA-130
LFSR (polynomial x^15+x+1, register preset to 0x0001); the first 12
bytes (the sync) are zeroed.  `Scrambler::Process` XORs a buffer with
the table. -/

/-- One bit-step of the ECMA-130 shift register
(`Scrambler::GenerateTable` inner loop body):
`carry = sr & 1 ^ sr >> 1 & 1; sr = ((carry << 15 | sr) >> 1)`. -/
def scrambler_shift_step (sr : Nat) : Nat :=
  let carry := (sr % 2) ^^^ ((sr / 2) % 2)
  (Nat.lor (carry <<< 15) sr) >>> 1

/-- The shift register advanced by 8 bit-steps, i.e. one table byte
(`Scrambler::GenerateTable` outer loop iteration). -/
def scrambler_shift_byte (sr : Nat) : Nat :=
  Nat.iterate scrambler_shift_step 8 sr

/-- Register value used for table entry `12 + k`
(`shift_register` at the start of outer iteration `k`, preset to 0x0001). -/
def scrambler_register (k : Nat) : Nat :=
  Nat.iterate scrambler_shift_byte k 1

/-- The precomputed scrambling table (`Scrambler::_table`): zero over the
first 12 bytes (sync), then the low 8 bits of the shift register. -/
def scrambler_table (i : Nat) : Nat :=
  if i < 12 then 0 else scrambler_register (i - 12) % 256

/-- `Scrambler::Process` starting at table index `i`: XOR each byte with
the table entry at its position. -/
def ProcessFrom (i : Nat) : List Nat → List Nat
  | [] => []
  | b :: rest => (b ^^^ scrambler_table i) :: ProcessFrom (i + 1) rest

/-- `Scrambler::Process`: XOR the buffer with the precomputed table,
position by position (`sector_out[i] = sector_in[i] ^ _table[i]`). -/
def Process (sector : List Nat) : List Nat := ProcessFrom 0 sector

/-! `Scrambler::Descramble`: the buffer is its own size (`size` is the
length of the list).  Header bytes live at offsets 12..15, user data of
mode 2 at offset 16 (2336 bytes). -/

/-- Header-address check of `Scrambler::Descramble`: after unscrambling,
the BCD MSF header (bytes 12,13,14) decodes to the supplied LBA. -/
def descramble_msf_match (s : List Nat) (lba : Int) : Bool :=
  BCDMSF_to_LBA (s.getD 12 0) (s.getD 13 0) (s.getD 14 0) == lba

/-- Sync check of `Scrambler::Descramble`:
`memcmp(sector, CD_DATA_SYNC, 12) == 0`. -/
def descramble_sync_match (s : List Nat) : Bool :=
  s.take 12 == CD_DATA_SYNC

/-- Mode-0 user-data check of `Scrambler::Descramble`: the first
`min(size - 16, 2336)` bytes of `mode2.user_data` are zero. -/
def descramble_mode0_zeroed (s : List Nat) : Bool :=
  is_zeroed ((s.drop 16).take 2336)

/-- The success predicate of `Scrambler::Descramble` evaluated on the
unscrambled buffer `s`: MSF match (when an lba is supplied), else sync
plus mode 0 with zeroed user data, or sync plus mode 1 or 2. -/
def descramble_success (s : List Nat) (lba : Option Int) : Bool :=
  if (match lba with
      | some l => descramble_msf_match s l
      | none => false) then
    true
  else if descramble_sync_match s then
    if s.getD 15 0 == 0 then descramble_mode0_zeroed s
    else if s.getD 15 0 == 1 || s.getD 15 0 == 2 then true
    else false
  else false

/-- `Scrambler::Descramble`: returns the boolean result together with
the final contents of the buffer (the C++ code mutates in place).
Zeroed buffers and buffers shorter than sync+header (16 bytes) are
rejected untouched; otherwise the buffer is unscrambled, and scrambled
back when the checks fail. -/
def Descramble (sector : List Nat) (lba : Option Int) : Bool × List Nat :=
  if is_zeroed sector || sector.length < 16 then
    (false, sector)
  else
    let s := Process sector
    if descramble_success s lba then (true, s) else (false, Process s)

/-- Flattened form of the branch structure of `Scrambler::Descramble`'s
success predicate, proved equal to `descramble_success` below. -/
def descramble_success_flat (s : List Nat) (lba : Option Int) : Bool :=
  (match lba with
   | some l => descramble_msf_match s l
   | none => false) ||
  descramble_sync_match s && (s.getD 15 0 == 1 || s.getD 15 0 == 2) ||
  descramble_sync_match s && (s.getD 15 0 == 0) && descramble_mode0_zeroed s

/-! ## Per-sample state (common.hh `State` enum)

Modelled from the spec for the enum values (the header is not under
`src/`): a totally ordered `uint8_t` enumeration
`ERROR_SKIP < ERROR_C2 < SUCCESS_C2_OFF < SUCCESS_SCSI_OFF < SUCCESS`;
the source compares values with the usual integer order. -/

/-- The per-sample state value (`State` in `common.hh`). -/
inductive State where
  | ERROR_SKIP
  | ERROR_C2
  | SUCCESS_C2_OFF
  | SUCCESS_SCSI_OFF
  | SUCCESS
deriving DecidableEq, Repr

/-- The underlying `uint8_t` value of a `State`. -/
def State.toNat : State → Nat
  | .ERROR_SKIP => 0
  | .ERROR_C2 => 1
  | .SUCCESS_C2_OFF => 2
  | .SUCCESS_SCSI_OFF => 3
  | .SUCCESS => 4

/-- Integer comparison on states, as the C++ `operator<` on the enum. -/
def State.lt (a b : State) : Bool := a.toNat < b.toNat

/-! ## Refine merge (redumper.cc, `redumper_dump`, refine store path)

The refine store path reads the stored state and data of the sector and
merges the new read into them sample by sample:
`if(sector_state_file[i] > sector_state[i]) { sector_state[i] =
sector_state_file[i]; data[i] = data_file[i]; }`, marking `update`
whenever `sector_state[i] > sector_state_file[i]`.  A sample is a pair
of its state and its 32-bit data word. -/

/-- One sample of the refine merge: the new read's (state, word) against
the file's (state, word); the file's pair is inherited exactly when the
file's state is strictly greater. -/
def refine_merge_sample (new_s : State × Nat) (file_s : State × Nat) : State × Nat :=
  if State.lt new_s.1 file_s.1 then file_s else new_s

/-- The refine merge over a whole sector (sample-wise zip of the new
read against the file contents). -/
def refine_merge (new_s file_s : List (State × Nat)) : List (State × Nat) :=
  List.zipWith refine_merge_sample new_s file_s

/-- The `update` flag of the refine merge: some sample of the new read
has a strictly greater state than the file. -/
def refine_merge_update (new_s file_s : List (State × Nat)) : Bool :=
  List.zipWith (fun n f => State.lt (Prod.fst f) (Prod.fst n)) new_s file_s |>.any id

/-! ## Plextor lead-in commit (redumper.cc, `plextor_store_sessions_leadin`)

For each committed sector the stored state is read; the loop walks the
samples and, at the first sample whose state is below `SUCCESS_C2_OFF`,
fills the whole sector state with `SUCCESS_C2_OFF`, writes data and
state, and breaks.  If no such sample exists nothing is written. -/

/-- The loop condition of the lead-in commit: some stored sample is
below `SUCCESS_C2_OFF` (the C++ loop breaks at the first one). -/
def leadin_needs_write : List State → Bool
  | [] => false
  | s :: rest => if State.lt s State.SUCCESS_C2_OFF then true else leadin_needs_write rest

/-- The stored sector state after the lead-in commit: filled entirely
with `SUCCESS_C2_OFF` when a sample below it exists, untouched
otherwise. -/
def plextor_leadin_commit_state (file_s : List State) : List State :=
  if leadin_needs_write file_s then file_s.map (fun _ => State.SUCCESS_C2_OFF) else file_s

/-! ## LBA ranges -/

/-- Modelled from the spec: `inside_range` from the missing `common.hh`;
skip/error ranges are half-open LBA intervals and the function yields
the range containing `lba` (the C++ returns a pointer, `none` models
`nullptr`). -/
def inside_range (lba : Int) (ranges : List (Int × Int)) : Option (Int × Int) :=
  ranges.find? (fun r => decide (r.1 ≤ lba) && decide (lba < r.2))

/-! ## Dump loop read classification (redumper.cc, `redumper_dump`)

One iteration of the main per-LBA loop after `read_sector` returns: the
Plextor slow-sector branch swallows everything inside an error range; a
SCSI error increments `errors_scsi` only outside every error range and
below `lba_end` (and only when not refining); a successful read stores
the sector and increments `errors_c2` whenever any C2 bits were
reported (again only when not refining) — with no error-range or
`lba_end` guard on the C2 side. -/

/-- Outcome of `read_sector` for one LBA: SCSI success flag, the
slow-read flag (elapsed over `SLOW_SECTOR_TIMEOUT`), and the C2 bit
count computed by `state_from_c2`. -/
structure ReadOutcome where
  scsi_ok : Bool
  slow : Bool
  c2_bits : Nat
deriving DecidableEq, Repr

/-- Effect of one dump-loop read on the error counters plus the `store`
flag. -/
structure ReadDeltas where
  d_scsi : Nat
  d_c2 : Nat
  store : Bool
deriving DecidableEq, Repr

/-- The error accounting of one normal (non-ASUS-cache) read in the
dump loop (`redumper_dump`, the branch chain after `read_sector`). -/
def dump_read_classify (refine plextor : Bool) (outcome : ReadOutcome)
    (lba lba_end : Int) (error_ranges : List (Int × Int)) : ReadDeltas :=
  if plextor && outcome.slow && (inside_range lba error_ranges).isSome then
    ⟨0, 0, false⟩
  else if !outcome.scsi_ok then
    if (inside_range lba error_ranges).isNone && decide (lba < lba_end) then
      ⟨if refine then 0 else 1, 0, false⟩
    else
      ⟨0, 0, false⟩
  else
    ⟨0, if outcome.c2_bits ≠ 0 && !refine then 1 else 0, true⟩

/-- The condition under which the LG/ASUS lead-out cache path
synthesizes the sector instead of reading it
(`r != nullptr && lba >= r->first || lba >= lba_end`). -/
def asus_leadout_region (lba lba_end : Int) (error_ranges : List (Int × Int)) : Bool :=
  (match inside_range lba error_ranges with
   | some r => decide (r.1 ≤ lba)
   | none => false) || decide (lba_end ≤ lba)

/-- The error accounting of a sector synthesized from the LG/ASUS
lead-out cache: state is `SUCCESS_SCSI_OFF`, and any C2 bits increment
`errors_c2` when not refining; the sector is always stored. -/
def asus_leadout_classify (refine : Bool) (c2_bits : Nat) : ReadDeltas :=
  ⟨0, if c2_bits ≠ 0 && !refine then 1 else 0, true⟩

/-! ## TOC model and fake-TOC detection (redumper.cc, `redumper_dump`)

`lba_end` is preset to `MSF_to_LBA(MSF{74, 0, 0})`; after parsing the
TOC, the code logs a fake TOC and keeps the default when
`toc.sessions.back().tracks.back().lba_end < 0`, and otherwise takes
that last track's `lba_end`. -/

/-- A TOC track (only the fields the dump engine consults here). -/
structure Track where
  lba_start : Int
  lba_end : Int
deriving DecidableEq, Repr

/-- A TOC session: a list of tracks. -/
structure Session where
  tracks : List Track
deriving DecidableEq, Repr

/-- A parsed TOC: a list of sessions. -/
structure TOC where
  sessions : List Session
deriving DecidableEq, Repr

/-- `toc.sessions.back().tracks.back()` (the C++ calls `.back()` on
non-empty vectors; defaults stand in for the out-of-domain cases). -/
def toc_last_track (toc : TOC) : Track :=
  ((toc.sessions.getLastD ⟨[]⟩).tracks.getLastD ⟨0, 0⟩)

/-- The default disc length preset: `MSF_to_LBA(MSF{74, 0, 0})`. -/
def default_lba_end : Int := MSF_to_LBA 74 0 0

/-- The fake-TOC condition of `redumper_dump`:
`toc.sessions.back().tracks.back().lba_end < 0`. -/
def fake_toc (toc : TOC) : Bool := decide ((toc_last_track toc).lba_end < 0)

/-- The `lba_end` the dump engine ends up with: the 74-minute default on
a fake TOC, the last track's `lba_end` otherwise. -/
def dump_lba_end (toc : TOC) : Int :=
  if fake_toc toc then default_lba_end else (toc_last_track toc).lba_end

/-- Follows the claim's words (refinement comparison only): a fake TOC
is declared when the last track's `lba_end ≤ lba_start`, where
`lba_start` is the drive's `pregap_start`. -/
def fake_toc_claim (toc : TOC) (lba_start : Int) : Bool :=
  decide ((toc_last_track toc).lba_end ≤ lba_start)

/-! ## Progress percentage (redumper.cc, `percentage`)

`uint32_t percentage(int32_t value, uint32_t value_max)`: 0 for
negative values, 100 when `value_max` is zero or the value reaches it,
otherwise `value * 100 / value_max` — where `value * 100` is computed
in 32-bit machine arithmetic, so the product wraps modulo 2^32 before
the division. -/

/-- `percentage` from redumper.cc; `value` is the int32 argument,
`value_max` the uint32 argument (a `Nat` below 2^32), and the result is
the returned uint32. -/
def percentage (value : Int) (value_max : Nat) : Nat :=
  if value < 0 then 0
  else if value_max = 0 || decide (value_max ≤ value.toNat) then 100
  else value.toNat * 100 % 2 ^ 32 / value_max

/-! ## LibCrypt detection (src/systems/psx.cc, `SystemPSX::detectLibCrypt`)

The subcode file is abstracted as the Q-CRC validity at each LBA
(`qValid`), which is all `detectLibCrypt` consults; `lba_end` is
`_trackSize / CD_DATA_SIZE`.  For every base LBA whose pair fits below
`lba_end`, BOTH `base` and `base + 5` are pushed onto `candidates` when
both have invalid Q; LibCrypt is reported when `candidates.size()` is
in `_LIBCRYPT_SECTORS_COUNT = {16, 32}`. -/

/-- `SystemPSX::_LIBCRYPT_SECTORS_BASE`: the 32 pre-known base LBAs. -/
def LIBCRYPT_SECTORS_BASE : List Int :=
  [13955, 14081, 14335, 14429, 14499, 14749, 14906, 14980,
   15092, 15162, 15228, 15478, 15769, 15881, 15951, 16017,
   41895, 42016, 42282, 42430, 42521, 42663, 42862, 43027,
   43139, 43204, 43258, 43484, 43813, 43904, 44009, 44162]

/-- `SystemPSX::_LIBCRYPT_SECTORS_SHIFT`. -/
def LIBCRYPT_SECTORS_SHIFT : Int := 5

/-- `SystemPSX::_LIBCRYPT_SECTORS_COUNT`: the candidate-list sizes that
flag LibCrypt. -/
def LIBCRYPT_SECTORS_COUNT : List Nat := [16, 32]

/-- One iteration of the candidate loop of `SystemPSX::detectLibCrypt`:
skip the base when `lba1` or `lba2` reaches `lba_end`, and append BOTH
`lba1` and `lba2` to `candidates` when both have invalid Q. -/
def libcrypt_step (qValid : Int → Bool) (lba_end : Int) (candidates : List Int) (b : Int) : List Int :=
  let lba1 := b
  let lba2 := b + LIBCRYPT_SECTORS_SHIFT
  if decide (lba_end ≤ lba1) || decide (lba_end ≤ lba2) then candidates
  else if !qValid lba1 && !qValid lba2 then candidates ++ [lba1, lba2]
  else candidates

/-- The `candidates` vector after the loop of
`SystemPSX::detectLibCrypt`. -/
def libcrypt_candidates (qValid : Int → Bool) (lba_end : Int) : List Int :=
  LIBCRYPT_SECTORS_BASE.foldl (libcrypt_step qValid lba_end) []

/-- `SystemPSX::detectLibCrypt`'s result:
`_LIBCRYPT_SECTORS_COUNT.find(candidates.size()) != end`. -/
def detectLibCrypt (qValid : Int → Bool) (lba_end : Int) : Bool :=
  LIBCRYPT_SECTORS_COUNT.contains (libcrypt_candidates qValid lba_end).length

/-- Follows the claim's words: a base LBA "matches" when it is not
excluded by `lba_end` and both `base` and `base + 5` have invalid Q
CRC. -/
def libcrypt_base_matches (qValid : Int → Bool) (lba_end : Int) (b : Int) : Bool :=
  !(decide (lba_end ≤ b) || decide (lba_end ≤ b + LIBCRYPT_SECTORS_SHIFT)) &&
  (!qValid b && !qValid (b + LIBCRYPT_SECTORS_SHIFT))

/-- Follows the claim's words: the number of matching base LBAs among
the 32 pre-known bases. -/
def libcrypt_matching_bases (qValid : Int → Bool) (lba_end : Int) : Nat :=
  (LIBCRYPT_SECTORS_BASE.filter (libcrypt_base_matches qValid lba_end)).length

/-- A Q-validity assignment under which exactly the first 8 base LBAs
(and their +5 twins) have invalid Q CRC. -/
def libcrypt_q8 : Int → Bool := fun lba =>
  !(List.contains
      [13955, 13960, 14081, 14086, 14335, 14340, 14429, 14434,
       14499, 14504, 14749, 14754, 14906, 14911, 14980, 14985] lba)

/-! ## Regular expressions (std::regex, ECMAScript grammar)

`SystemPSX::findEXE` and `SystemPSX::deduceSerial` drive two concrete
`std::regex` patterns through `std::regex_match` (anchored full-string
matching).  The engine below is a backtracking matcher with numbered
capture groups in ECMAScript preference order: alternation prefers the
left branch, greedy quantifiers try the longer match first, lazy ones
the shorter; a star iteration must consume input.  `fuel` bounds the
recursion depth and is chosen large enough for the inputs considered. -/

/-- Abstract syntax of the regular expression fragment the two PSX
patterns need. -/
inductive RE where
  | eps
  | lit (c : Char)
  | dot
  | cls (f : Char → Bool)
  | seq (r1 r2 : RE)
  | alt (r1 r2 : RE)
  | star (greedy : Bool) (r : RE)
  | opt (greedy : Bool) (r : RE)
  | group (i : Nat) (r : RE)

/-- Captured submatches: group index paired with the captured
characters; the most recent capture of a group is listed first. -/
def capStr (caps : List (Nat × List Char)) (i : Nat) : List Char :=
  match caps.find? (fun p => p.1 == i) with
  | some p => p.2
  | none => []

/-- Backtracking matcher in continuation-passing style: `k` receives
the remaining input and the captures; the first success in ECMAScript
preference order wins. -/
def reMatch (fuel : Nat) (re : RE) (s : List Char) (caps : List (Nat × List Char))
    (k : List Char → List (Nat × List Char) → Option (List (Nat × List Char))) :
    Option (List (Nat × List Char)) :=
  match fuel with
  | 0 => none
  | fuel + 1 =>
    match re with
    | .eps => k s caps
    | .lit c =>
      match s with
      | [] => none
      | x :: rest => if x = c then k rest caps else none
    | .dot =>
      match s with
      | [] => none
      | x :: rest => if x = '\n' ∨ x = '\r' then none else k rest caps
    | .cls f =>
      match s with
      | [] => none
      | x :: rest => if f x then k rest caps else none
    | .seq r1 r2 => reMatch fuel r1 s caps (fun s2 caps2 => reMatch fuel r2 s2 caps2 k)
    | .alt r1 r2 =>
      match reMatch fuel r1 s caps k with
      | some res => some res
      | none => reMatch fuel r2 s caps k
    | .opt greedy r =>
      if greedy then
        match reMatch fuel r s caps k with
        | some res => some res
        | none => k s caps
      else
        match k s caps with
        | some res => some res
        | none => reMatch fuel r s caps k
    | .star greedy r =>
      if greedy then
        match reMatch fuel r s caps (fun s2 caps2 =>
            if s2.length < s.length then reMatch fuel (.star greedy r) s2 caps2 k else none) with
        | some res => some res
        | none => k s caps
      else
        match k s caps with
        | some res => some res
        | none =>
          reMatch fuel r s caps (fun s2 caps2 =>
            if s2.length < s.length then reMatch fuel (.star greedy r) s2 caps2 k else none)
    | .group i r =>
      reMatch fuel r s caps (fun s2 caps2 =>
        k s2 ((i, s.take (s.length - s2.length)) :: caps2))

/-- `std::regex_match`: anchored full-string matching; yields the
captures on success. -/
def regex_match (re : RE) (s : String) : Option (List (Nat × List Char)) :=
  reMatch ((s.length + 1) * 200) re s.data []
    (fun s2 caps => if s2.isEmpty then some caps else none)

/-- The ECMAScript `\s` class (ASCII part). -/
def ws_char (c : Char) : Bool :=
  c = ' ' ∨ c = '\t' ∨ c = '\n' ∨ c = '\r' ∨ c = '\x0b' ∨ c = '\x0c'

/-- The `[A-Z]` class. -/
def upper_char (c : Char) : Bool := decide ('A' ≤ c ∧ c ≤ 'Z')

/-- The `[0-9]` class. -/
def digit_char (c : Char) : Bool := decide ('0' ≤ c ∧ c ≤ '9')

/-- Sequential composition of a list of patterns. -/
def reSeqL (l : List RE) : RE := l.foldr RE.seq RE.eps

/-- A literal string pattern. -/
def reStr (s : String) : RE := reSeqL (s.data.map RE.lit)

/-- The `+` quantifier: one occurrence followed by a greedy star. -/
def rePlus (r : RE) : RE := RE.seq r (RE.star true r)

/-! ## PSX EXE path, serial and region (src/systems/psx.cc) -/

/-- The `SystemPSX::findEXE` pattern
`^\s*BOOT.*=\s*cdrom.?:\\*(.*?)(?:;.*\s*|\s*$)`; under anchored full
matching the trailing alternation needs no explicit `$`. -/
def boot_re : RE := reSeqL
  [RE.star true (RE.cls ws_char),
   reStr "BOOT",
   RE.star true RE.dot,
   RE.lit '=',
   RE.star true (RE.cls ws_char),
   reStr "cdrom",
   RE.opt true RE.dot,
   RE.lit ':',
   RE.star true (RE.lit '\\'),
   RE.group 1 (RE.star false RE.dot),
   RE.alt (reSeqL [RE.lit ';', RE.star true RE.dot, RE.star true (RE.cls ws_char)])
          (RE.star true (RE.cls ws_char))]

/-- The `SystemPSX::deduceSerial` pattern
`(.*\\)*([A-Z]*)(_|-)?([A-Z]?[0-9]+)\.([0-9]+[A-Z]?)`. -/
def serial_re : RE := reSeqL
  [RE.star true (RE.group 1 (RE.seq (RE.star true RE.dot) (RE.lit '\\'))),
   RE.group 2 (RE.star true (RE.cls upper_char)),
   RE.opt true (RE.group 3 (RE.alt (RE.lit '_') (RE.lit '-'))),
   RE.group 4 (RE.seq (RE.opt true (RE.cls upper_char)) (rePlus (RE.cls digit_char))),
   RE.lit '.',
   RE.group 5 (RE.seq (rePlus (RE.cls digit_char)) (RE.opt true (RE.cls upper_char)))]

/-- `str_uppercase` from the missing `common.hh`, as used by
`SystemPSX::findEXE` (modelled from the spec: "uppercased"). -/
def str_uppercase (s : String) : String := String.mk (s.data.map Char.toUpper)

/-- One `SYSTEM.CNF` line of `SystemPSX::findEXE`: when the BOOT regex
matches with a capture, the uppercased capture is the EXE path. -/
def findEXE_line (line : String) : Option String :=
  match regex_match boot_re line with
  | some caps => some (str_uppercase (String.mk (capStr caps 1)))
  | none => none

/-- The `getline` loop of `SystemPSX::findEXE`: the first matching line
wins; no match leaves the path empty. -/
def findEXE_lines : List String → String
  | [] => ""
  | line :: rest =>
    match findEXE_line line with
    | some p => p
    | none => findEXE_lines rest

/-- `std::getline` splitting on the newline character: the accumulated
line (held reversed in `cur`) ends at a newline or at the end of the
stream; a trailing newline yields no extra empty line. -/
def getline_split (cur : List Char) : List Char → List (List Char)
  | [] => [cur.reverse]
  | c :: rest =>
    if c = '\n' then
      match rest with
      | [] => [cur.reverse]
      | _ => cur.reverse :: getline_split [] rest
    else getline_split (c :: cur) rest

/-- The lines of a `SYSTEM.CNF` text, as `std::getline` produces them
(an empty stream yields no lines). -/
def cnf_lines (content : String) : List String :=
  match content.data with
  | [] => []
  | l => (getline_split [] l).map String.mk

/-- `SystemPSX::findEXE` on the text of `SYSTEM.CNF`. -/
def findEXE (content : String) : String := findEXE_lines (cnf_lines content)

/-- `SystemPSX::deduceSerial`: serial prefix is group 2, serial number
is group 4 ++ group 5, with the two hardcoded special cases (Road
Writer, GameGenius). -/
def deduceSerial (exe_path : String) : String × String :=
  match regex_match serial_re exe_path with
  | none => ("", "")
  | some caps =>
    let first := String.mk (capStr caps 2)
    let second := String.mk (capStr caps 4) ++ String.mk (capStr caps 5)
    if first = "" && second = "907127001" then ("LSP", second)
    else if first = "PAR" && second = "90001" then ("", "")
    else (first, second)

/-- `SystemPSX::detectRegion`'s Japan prefix set. -/
def REGION_J : List String :=
  ["ESPM", "PAPX", "PCPX", "PDPX", "SCPM", "SCPS", "SCZS", "SIPS", "SLKA", "SLPM", "SLPS"]

/-- `SystemPSX::detectRegion`'s USA prefix set. -/
def REGION_U : List String := ["LSP", "PEPX", "SCUS", "SLUS", "SLUSP"]

/-- `SystemPSX::detectRegion`'s Europe prefix set. -/
def REGION_E : List String := ["PUPX", "SCED", "SCES", "SLED", "SLES"]

/-- `SystemPSX::detectRegion`: look the serial prefix up in the three
fixed sets. -/
def detectRegion (pfx : String) : String :=
  if REGION_J.contains pfx then "Japan"
  else if REGION_U.contains pfx then "USA"
  else if REGION_E.contains pfx then "Europe"
  else ""

/-! ## Scrambler theorems -/

theorem processFrom_length (i : Nat) (l : List Nat) : (ProcessFrom i l).length = l.length := by
  induction l generalizing i with
  | nil => rfl
  | cons b rest ih => simp [ProcessFrom, ih]

theorem processFrom_involutive (i : Nat) (l : List Nat) :
    ProcessFrom i (ProcessFrom i l) = l := by
  induction l generalizing i with
  | nil => rfl
  | cons b rest ih =>
    simp only [ProcessFrom, ih]
    rw [Nat.xor_assoc, Nat.xor_self, Nat.xor_zero]

theorem process_involutive (l : List Nat) : Process (Process l) = l :=
  processFrom_involutive 0 l

theorem processFrom_take_zero_table (i k : Nat) (l : List Nat)
    (h : ∀ j, j < k → scrambler_table (i + j) = 0) :
    (ProcessFrom i l).take k = l.take k := by
  induction l generalizing i k with
  | nil => rfl
  | cons b rest ih =>
    cases k with
    | zero => rfl
    | succ k' =>
      have h0 : scrambler_table i = 0 := by
        have := h 0 (Nat.succ_pos k')
        simpa using this
      simp only [ProcessFrom, List.take_succ_cons, h0, Nat.xor_zero]
      refine congrArg (List.cons b) ?_
      apply ih
      intro j hj
      have := h (j + 1) (by omega)
      simpa [Nat.add_assoc, Nat.add_comm 1 j] using this

/-- C6: the scrambler's `Process` is an involution on any 2352-byte
buffer, it never modifies the first 12 bytes (the sync), and the
precomputed table is zero on the first 12 entries. -/
theorem scrambler_process_involution (b : List Nat) (_hb : b.length = 2352) :
    Process (Process b) = b ∧
    (Process b).take 12 = b.take 12 ∧
    List.map scrambler_table (List.range 12) = List.replicate 12 0 := by
  refine ⟨process_involutive b, ?_, by decide⟩
  apply processFrom_take_zero_table
  intro j hj
  simp [scrambler_table, hj]

/-- Witness for C6 at the all-zero 2352-byte buffer. -/
theorem scrambler_process_involution_witness :
    Process (Process (List.replicate 2352 0)) = List.replicate 2352 0 :=
  (scrambler_process_involution (List.replicate 2352 0) (by rw [List.length_replicate])).1

/-- C7: whenever `Descramble` returns false, the buffer is returned
exactly as it was: either the call rejected it before any
transformation, or the scrambling XOR was re-applied. -/
theorem descramble_false_preserves (sector : List Nat) (lba : Option Int)
    (h : (Descramble sector lba).1 = false) :
    (Descramble sector lba).2 = sector := by
  unfold Descramble at *
  by_cases hz : (is_zeroed sector || sector.length < 16 : Bool)
  · simp [hz]
  · simp only [hz, Bool.false_eq_true, if_false] at *
    by_cases hs : descramble_success (Process sector) lba
    · simp [hs] at h
    · simp [hs, process_involutive]

/-- Witness for C7: a 1-byte non-zero buffer is rejected and returned
unchanged. -/
theorem descramble_false_preserves_witness :
    (Descramble [1] none).2 = [1] :=
  descramble_false_preserves [1] none (by decide)

theorem descramble_success_eq_flat (s : List Nat) (lba : Option Int) :
    descramble_success s lba = descramble_success_flat s lba := by
  unfold descramble_success descramble_success_flat
  cases lba with
  | none =>
    by_cases hsync : descramble_sync_match s <;>
      by_cases hm0 : s.getD 15 0 = 0 <;>
      by_cases hm1 : s.getD 15 0 = 1 <;>
      by_cases hm2 : s.getD 15 0 = 2 <;>
      simp_all
  | some l =>
    by_cases hmsf : descramble_msf_match s l <;>
      by_cases hsync : descramble_sync_match s <;>
      by_cases hm0 : s.getD 15 0 = 0 <;>
      by_cases hm1 : s.getD 15 0 = 1 <;>
      by_cases hm2 : s.getD 15 0 = 2 <;>
      simp_all

theorem descramble_fst_eq (sector : List Nat) (lba : Option Int)
    (hnz : is_zeroed sector = false) (hlen : 16 ≤ sector.length) :
    (Descramble sector lba).1 = descramble_success (Process sector) lba := by
  have hz : (is_zeroed sector || decide (sector.length < 16)) = false := by
    simp only [hnz, Bool.false_or, decide_eq_false_iff_not]
    omega
  unfold Descramble
  rw [hz]
  simp only [Bool.false_eq_true, if_false]
  by_cases hs : descramble_success (Process sector) lba <;> simp [hs]

/-- C8: for a non-zeroed buffer of size at least 16, `Descramble`
succeeds exactly when, on the unscrambled bytes, (a) an lba was supplied
and the BCD MSF header decodes to it, or (b) the sync pattern matches
and the mode byte is 1 or 2, or (c) the sync pattern matches, the mode
is 0 and the user data area (bytes 16 onward, up to 2336 of them) is
all zero. -/
theorem descramble_true_iff (sector : List Nat) (lba : Option Int)
    (hnz : is_zeroed sector = false) (hlen : 16 ≤ sector.length) :
    (Descramble sector lba).1 = true ↔
      ((∃ l, lba = some l ∧
          BCDMSF_to_LBA ((Process sector).getD 12 0) ((Process sector).getD 13 0)
            ((Process sector).getD 14 0) = l) ∨
       (descramble_sync_match (Process sector) = true ∧
          ((Process sector).getD 15 0 = 1 ∨ (Process sector).getD 15 0 = 2)) ∨
       (descramble_sync_match (Process sector) = true ∧
          (Process sector).getD 15 0 = 0 ∧
          descramble_mode0_zeroed (Process sector) = true)) := by
  rw [descramble_fst_eq sector lba hnz hlen, descramble_success_eq_flat]
  unfold descramble_success_flat
  cases lba with
  | none =>
    simp only [Bool.or_eq_true, Bool.and_eq_true, beq_iff_eq]
    constructor
    · rintro ((h | ⟨hsync, hm⟩) | ⟨⟨hsync, hm⟩, hz⟩)
      · exact absurd h (by simp)
      · exact Or.inr (Or.inl ⟨hsync, hm⟩)
      · exact Or.inr (Or.inr ⟨hsync, hm, hz⟩)
    · rintro (⟨l, hl, _⟩ | ⟨hsync, hm⟩ | ⟨hsync, hm, hz⟩)
      · exact absurd hl (by simp)
      · exact Or.inl (Or.inr ⟨hsync, hm⟩)
      · exact Or.inr ⟨⟨hsync, hm⟩, hz⟩
  | some l =>
    simp only [Bool.or_eq_true, Bool.and_eq_true, beq_iff_eq, descramble_msf_match]
    constructor
    · rintro ((h | ⟨hsync, hm⟩) | ⟨⟨hsync, hm⟩, hz⟩)
      · exact Or.inl ⟨l, rfl, by simpa using h⟩
      · exact Or.inr (Or.inl ⟨hsync, hm⟩)
      · exact Or.inr (Or.inr ⟨hsync, hm, hz⟩)
    · rintro (⟨l', hl', h⟩ | ⟨hsync, hm⟩ | ⟨hsync, hm, hz⟩)
      · cases Option.some.inj hl'
        exact Or.inl (Or.inl (by simpa using h))
      · exact Or.inl (Or.inr ⟨hsync, hm⟩)
      · exact Or.inr ⟨⟨hsync, hm⟩, hz⟩

/-- Witness for C8 at a concrete non-zeroed 16-byte buffer. -/
theorem descramble_true_iff_witness :
    is_zeroed (1 :: List.replicate 15 0) = false ∧
    16 ≤ (1 :: List.replicate 15 0).length ∧
    ((Descramble (1 :: List.replicate 15 0) none).1 = true ↔
      ((∃ l, (none : Option Int) = some l ∧
          BCDMSF_to_LBA ((Process (1 :: List.replicate 15 0)).getD 12 0)
            ((Process (1 :: List.replicate 15 0)).getD 13 0)
            ((Process (1 :: List.replicate 15 0)).getD 14 0) = l) ∨
       (descramble_sync_match (Process (1 :: List.replicate 15 0)) = true ∧
          ((Process (1 :: List.replicate 15 0)).getD 15 0 = 1 ∨
           (Process (1 :: List.replicate 15 0)).getD 15 0 = 2)) ∨
       (descramble_sync_match (Process (1 :: List.replicate 15 0)) = true ∧
          (Process (1 :: List.replicate 15 0)).getD 15 0 = 0 ∧
          descramble_mode0_zeroed (Process (1 :: List.replicate 15 0)) = true))) :=
  ⟨by decide, by decide,
    descramble_true_iff (1 :: List.replicate 15 0) none (by decide) (by decide)⟩

/-! ## Refine merge theorems (C4) -/

/-- C4 counterexample: on a tie the merge keeps the NEW read's data
word, not the file's.  Here both states are `SUCCESS`, the new word is
1, the file word is 2, and the merged sample keeps word 1. -/
theorem refine_merge_tie_keeps_new :
    refine_merge_sample (State.SUCCESS, 1) (State.SUCCESS, 2) = (State.SUCCESS, 1) ∧
    (1 : Nat) ≠ 2 := by
  constructor
  · rfl
  · decide

/-- C4 amended: after any refine merge step, every sample's state is
the maximum of the two input states, and its data word comes from the
file exactly when the file's state is strictly greater — on a tie the
new read's word is kept. -/
theorem refine_merge_monotone (new_s file_s : List (State × Nat)) (i : Nat)
    (d : State × Nat) (h1 : i < new_s.length) (h2 : i < file_s.length) :
    ((refine_merge new_s file_s).getD i d).1.toNat =
      max ((new_s.getD i d).1.toNat) ((file_s.getD i d).1.toNat) ∧
    ((refine_merge new_s file_s).getD i d).2 =
      (if (file_s.getD i d).1.toNat > (new_s.getD i d).1.toNat
       then (file_s.getD i d).2 else (new_s.getD i d).2) := by
  induction new_s generalizing file_s i with
  | nil => simp at h1
  | cons n rest ih =>
    cases file_s with
    | nil => simp at h2
    | cons f frest =>
      cases i with
      | zero =>
        simp only [refine_merge, List.zipWith_cons_cons, List.getD_cons_zero]
        unfold refine_merge_sample State.lt
        by_cases hlt : n.1.toNat < f.1.toNat <;>
          constructor <;> simp [hlt, Nat.max_def] <;>
          first
          | omega
          | (split <;> omega)
      | succ i' =>
        simp only [refine_merge, List.zipWith_cons_cons, List.getD_cons_succ]
        exact ih frest i' (by simpa using h1) (by simpa using h2)

/-- Witness for C4 amended at sample 0 of concrete one-sample sectors. -/
theorem refine_merge_monotone_witness :
    ((refine_merge [(State.SUCCESS, 7)] [(State.ERROR_C2, 9)]).getD 0
        (State.ERROR_SKIP, 0)).1.toNat =
      max (State.SUCCESS.toNat) (State.ERROR_C2.toNat) ∧
    ((refine_merge [(State.SUCCESS, 7)] [(State.ERROR_C2, 9)]).getD 0
        (State.ERROR_SKIP, 0)).2 =
      (if State.ERROR_C2.toNat > State.SUCCESS.toNat then 9 else 7) := by
  have h := refine_merge_monotone [(State.SUCCESS, 7)] [(State.ERROR_C2, 9)] 0
    (State.ERROR_SKIP, 0) (by decide) (by decide)
  simpa using h

/-! ## Plextor lead-in theorems (C5) -/

/-- C5 counterexample: a sector whose stored state mixes `ERROR_SKIP`
and `SUCCESS` is rewritten entirely to `SUCCESS_C2_OFF`: the `SUCCESS`
sample does NOT keep its state — it is lowered below it. -/
theorem plextor_leadin_lowers_success :
    plextor_leadin_commit_state [State.ERROR_SKIP, State.SUCCESS] =
      [State.SUCCESS_C2_OFF, State.SUCCESS_C2_OFF] ∧
    State.SUCCESS.toNat > State.SUCCESS_C2_OFF.toNat := by
  constructor
  · rfl
  · decide

/-- C5 amended: the lead-in commit writes a sector's data and state
exactly when some stored sample is below `SUCCESS_C2_OFF`; it then sets
every sample of the sector to `SUCCESS_C2_OFF` (which can lower samples
stored above it), and leaves the sector untouched otherwise. -/
theorem plextor_leadin_commit_characterization (file_s : List State) :
    (leadin_needs_write file_s = file_s.any (fun s => State.lt s State.SUCCESS_C2_OFF)) ∧
    plextor_leadin_commit_state file_s =
      (if file_s.any (fun s => State.lt s State.SUCCESS_C2_OFF)
       then List.replicate file_s.length State.SUCCESS_C2_OFF else file_s) := by
  have hneed : leadin_needs_write file_s =
      file_s.any (fun s => State.lt s State.SUCCESS_C2_OFF) := by
    induction file_s with
    | nil => rfl
    | cons s rest ih =>
      unfold leadin_needs_write
      by_cases h : State.lt s State.SUCCESS_C2_OFF <;> simp [h, ih]
  have hmap : ∀ l : List State,
      l.map (fun _ => State.SUCCESS_C2_OFF) = List.replicate l.length State.SUCCESS_C2_OFF := by
    intro l
    induction l with
    | nil => rfl
    | cons s rest ih => simp [List.replicate_succ, ih]
  refine ⟨hneed, ?_⟩
  unfold plextor_leadin_commit_state
  rw [hneed, hmap]

/-! ## Dump loop error accounting theorems (C1) -/

/-- C1 counterexample: a successful read with one C2 bit at LBA 150,
which lies inside the error range [100, 200), still increments
`errors_c2` in dump mode — and the ASUS lead-out cache path (only taken
inside error ranges or at/past `lba_end`) does the same. -/
theorem dump_c2_counted_inside_error_range :
    (inside_range 150 [((100 : Int), 200)]).isSome = true ∧
    (dump_read_classify false false ⟨true, false, 1⟩ 150 1000 [(100, 200)]).d_c2 = 1 ∧
    (asus_leadout_classify false 1).d_c2 = 1 := by
  refine ⟨by decide, by decide, by decide⟩

/-- C1 amended: inside any error range or at/past `lba_end`, a SCSI
error is never counted in `errors_scsi`; but C2 bits of a successful
read there ARE counted in `errors_c2` in dump mode (unless the
Plextor slow-sector branch swallowed the read), both on the normal path
and on the LG/ASUS lead-out cache path. -/
theorem dump_error_range_isolation (refine plextor slow scsi_ok : Bool)
    (c2_bits : Nat) (lba lba_end : Int) (error_ranges : List (Int × Int))
    (h : (inside_range lba error_ranges).isSome = true ∨ lba_end ≤ lba) :
    (dump_read_classify refine plextor ⟨scsi_ok, slow, c2_bits⟩ lba lba_end error_ranges).d_scsi = 0 ∧
    (scsi_ok = true →
      (plextor && slow && (inside_range lba error_ranges).isSome) = false →
      (dump_read_classify refine plextor ⟨scsi_ok, slow, c2_bits⟩ lba lba_end error_ranges).d_c2 =
        (if c2_bits ≠ 0 && !refine then 1 else 0)) ∧
    (asus_leadout_classify refine c2_bits).d_c2 = (if c2_bits ≠ 0 && !refine then 1 else 0) := by
  have hcond : ((inside_range lba error_ranges).isNone && decide (lba < lba_end)) = false := by
    rcases h with h | h
    · cases hin : (inside_range lba error_ranges) with
      | some r => simp [Option.isNone, hin]
      | none => rw [hin] at h; simp at h
    · simp only [Bool.and_eq_false_iff, decide_eq_false_iff_not]
      right
      omega
  refine ⟨?_, ?_, rfl⟩
  · unfold dump_read_classify
    by_cases hp : (plextor && slow && (inside_range lba error_ranges).isSome : Bool)
    · simp [hp]
    · simp only [hp, Bool.false_eq_true, if_false]
      cases scsi_ok with
      | false => simp [hcond]
      | true => simp
  · intro hok hnp
    unfold dump_read_classify
    rw [hnp, hok]
    simp

/-- Witness for C1 amended: a SCSI error at LBA 150 inside the error
range [100, 200) is not counted, while the C2 side of the same position
counts. -/
theorem dump_error_range_isolation_witness :
    (dump_read_classify false false ⟨false, false, 0⟩ 150 1000 [(100, 200)]).d_scsi = 0 ∧
    (asus_leadout_classify false 0).d_c2 = (if (0 : Nat) ≠ 0 && !false then 1 else 0) := by
  have h := dump_error_range_isolation false false false false 0 150 1000 [(100, 200)]
    (Or.inl (by decide))
  exact ⟨h.1, h.2.2⟩

/-! ## Fake-TOC theorems (C3) -/

/-- C3 counterexample: a TOC whose last track ends at LBA −10 with a
drive `pregap_start` of −150: the code declares a fake TOC (−10 < 0)
and keeps the 74-minute default 332850, while the claim's condition
(−10 ≤ −150) is false and would take `lba_end = −10`. -/
theorem fake_toc_counterexample :
    fake_toc ⟨[⟨[⟨0, -10⟩]⟩]⟩ = true ∧
    fake_toc_claim ⟨[⟨[⟨0, -10⟩]⟩]⟩ (-150) = false ∧
    dump_lba_end ⟨[⟨[⟨0, -10⟩]⟩]⟩ = 332850 ∧
    (332850 : Int) ≠ -10 := by
  refine ⟨by decide, by decide, by decide, by decide⟩

/-- C3 amended: the dump engine declares a fake TOC (and keeps the
default 74-minute length, LBA 332850) exactly when the last track of
the last session has `lba_end < 0`; otherwise `lba_end` is that last
track's `lba_end`.  The claim's condition agrees with the code only for
a threshold of −1, not for the drive's `pregap_start` in general. -/
theorem fake_toc_characterization (toc : TOC) :
    (fake_toc toc = true ↔ (toc_last_track toc).lba_end < 0) ∧
    fake_toc toc = fake_toc_claim toc (-1) ∧
    default_lba_end = 332850 ∧
    dump_lba_end toc =
      (if (toc_last_track toc).lba_end < 0 then 332850 else (toc_last_track toc).lba_end) := by
  refine ⟨by simp [fake_toc], ?_, by decide, ?_⟩
  · unfold fake_toc fake_toc_claim
    by_cases h : (toc_last_track toc).lba_end < 0
    · rw [decide_eq_true h, decide_eq_true (by omega)]
    · rw [decide_eq_false h, decide_eq_false (by omega)]
  · unfold dump_lba_end fake_toc
    have hd : default_lba_end = 332850 := by decide
    by_cases h : (toc_last_track toc).lba_end < 0 <;> simp [h, hd]

/-! ## Percentage theorems (C10) -/

/-- C10 counterexample: at `value = 2^31 − 1` and
`value_max = 2^32 − 1` the 32-bit product wraps, and `percentage`
returns 0 where the claimed formula `value * 100 / value_max` gives
49. -/
theorem percentage_overflow_counterexample :
    percentage 2147483647 4294967295 = 0 ∧
    (2147483647 * 100) / 4294967295 = 49 ∧
    (0 : Nat) ≠ 49 := by
  refine ⟨by decide, by decide, by decide⟩

/-- C10 amended: `percentage` always returns a value in [0, 100]; it
returns 0 on negative values, 100 when `value_max` is zero or the value
reaches it, and otherwise `(value * 100 mod 2^32) / value_max` — the
32-bit wrapped product — which is strictly below 100. -/
theorem percentage_range (value : Int) (value_max : Nat)
    (hmax : value_max < 2 ^ 32) :
    percentage value value_max ≤ 100 ∧
    (value < 0 → percentage value value_max = 0) ∧
    (value_max = 0 ∨ value_max ≤ value.toNat → 0 ≤ value → percentage value value_max = 100) ∧
    (0 ≤ value → value.toNat < value_max →
      percentage value value_max = value.toNat * 100 % 2 ^ 32 / value_max ∧
      percentage value value_max < 100) := by
  have hlt : 0 ≤ value → value.toNat < value_max →
      value.toNat * 100 % 2 ^ 32 / value_max < 100 := by
    intro hpos hv
    have hm : 0 < value_max := by omega
    rw [Nat.div_lt_iff_lt_mul hm]
    have : value.toNat * 100 % 2 ^ 32 < 100 * value_max := by omega
    omega
  refine ⟨?_, ?_, ?_, ?_⟩
  · unfold percentage
    by_cases h0 : value < 0
    · simp [h0]
    · simp only [h0, if_false]
      by_cases h1 : (value_max = 0 || decide (value_max ≤ value.toNat) : Bool)
      · simp [h1]
      · simp only [h1, Bool.false_eq_true, if_false]
        have hv : value.toNat < value_max := by
          simp only [Bool.or_eq_true, decide_eq_true_eq, not_or] at h1
          omega
        exact Nat.le_of_lt (hlt (by omega) hv)
  · intro h
    simp [percentage, h]
  · intro h hpos
    have h0 : ¬value < 0 := by omega
    unfold percentage
    rw [if_neg h0, if_pos]
    rcases h with h | h <;> simp [h]
  · intro hpos hv
    have h0 : ¬value < 0 := by omega
    have h1 : (value_max = 0 || decide (value_max ≤ value.toNat) : Bool) = false := by
      simp only [Bool.or_eq_false_iff, decide_eq_false_iff_not]
      constructor
      · omega
      · omega
    have heq : percentage value value_max = value.toNat * 100 % 2 ^ 32 / value_max := by
      unfold percentage
      rw [if_neg h0, h1]
      simp
    exact ⟨heq, heq ▸ hlt hpos hv⟩

/-- Witness for C10 amended at `value = 30`, `value_max = 60`. -/
theorem percentage_range_witness :
    percentage 30 60 ≤ 100 ∧ percentage 30 60 = (30 : Int).toNat * 100 % 2 ^ 32 / 60 := by
  have h := percentage_range 30 60 (by decide)
  exact ⟨h.1, (h.2.2.2 (by decide) (by decide)).1⟩

/-! ## LibCrypt theorems (C2) -/

theorem libcrypt_step_length (qValid : Int → Bool) (lba_end : Int)
    (candidates : List Int) (b : Int) :
    (libcrypt_step qValid lba_end candidates b).length =
      candidates.length + (if libcrypt_base_matches qValid lba_end b then 2 else 0) := by
  unfold libcrypt_step libcrypt_base_matches
  by_cases h1 : (decide (lba_end ≤ b) || decide (lba_end ≤ b + LIBCRYPT_SECTORS_SHIFT) : Bool)
  · simp [h1]
  · by_cases h2 : (!qValid b && !qValid (b + LIBCRYPT_SECTORS_SHIFT) : Bool) <;>
      simp [h1, h2]

theorem libcrypt_fold_length (qValid : Int → Bool) (lba_end : Int)
    (l : List Int) (acc : List Int) :
    (l.foldl (libcrypt_step qValid lba_end) acc).length =
      acc.length + 2 * (l.filter (libcrypt_base_matches qValid lba_end)).length := by
  induction l generalizing acc with
  | nil => simp
  | cons b t ih =>
    simp only [List.foldl_cons, List.filter_cons]
    rw [ih, libcrypt_step_length]
    by_cases h : libcrypt_base_matches qValid lba_end b <;> simp [h] <;> omega

/-- C2 counterexample: with exactly 8 matching base LBAs the candidate
list holds 16 LBAs (two per base), so the code reports LibCrypt even
though 8 is neither 16 nor 32 — the spec counts bases where the code
counts twin LBAs. -/
theorem libcrypt_counterexample :
    detectLibCrypt libcrypt_q8 300000 = true ∧
    libcrypt_matching_bases libcrypt_q8 300000 = 8 ∧
    ¬((8 : Nat) = 16 ∨ (8 : Nat) = 32) := by
  refine ⟨by decide, by decide, by decide⟩

/-- C2 amended: `detectLibCrypt` reports LibCrypt exactly when the
candidate list (two entries per matching base) has 16 or 32 entries,
i.e. exactly when 8 or 16 of the 32 pre-known base LBAs have invalid Q
CRC at both `base` and `base + 5` (bases cut off by the track end
excluded). -/
theorem detectLibCrypt_iff (qValid : Int → Bool) (lba_end : Int) :
    detectLibCrypt qValid lba_end = true ↔
      (libcrypt_matching_bases qValid lba_end = 8 ∨
       libcrypt_matching_bases qValid lba_end = 16) := by
  have hlen : (libcrypt_candidates qValid lba_end).length =
      2 * libcrypt_matching_bases qValid lba_end := by
    unfold libcrypt_candidates libcrypt_matching_bases
    rw [libcrypt_fold_length]
    simp
  unfold detectLibCrypt LIBCRYPT_SECTORS_COUNT
  rw [hlen]
  simp only [List.contains_cons, List.contains_nil, Bool.or_false, Bool.or_eq_true, beq_iff_eq]
  omega

/-! ## PSX serial scenario theorems (C9) -/

set_option maxRecDepth 8000 in
/-- C9: on a `SYSTEM.CNF` holding the line `BOOT = cdrom:\SCUS_944.23;1`,
the EXE path extraction yields `SCUS_944.23`, the serial deduction
yields prefix `SCUS` and number `94423` (printed `SCUS-94423`), and the
region detection yields `USA`. -/
theorem psx_scus_94423_scenario :
    findEXE "BOOT = cdrom:\\SCUS_944.23;1" = "SCUS_944.23" ∧
    deduceSerial "SCUS_944.23" = ("SCUS", "94423") ∧
    (deduceSerial "SCUS_944.23").1 ++ "-" ++ (deduceSerial "SCUS_944.23").2 = "SCUS-94423" ∧
    detectRegion "SCUS" = "USA" := by
  refine ⟨by decide, by decide, by decide, by decide⟩

end Redumper
